import Mathlib

/-!
# Resource-defect demonstrations: connection counting, string building, body streams

A shallow embedding of the Go programs under `goroutine_analyze/`,
`cpu_analyze/` and `memory_analyze/`.

* gRPC connections are counted by an explicit `Registry`: a successful
  `grpc.Dial` is an acquisition, `conn.Close` a release.
* The outside world (does a dial succeed, does `SayHello` succeed) is a
  parameter of every definition, so statements quantify over all behaviours
  of the server.
* The `for range ticker.C` loops are driven by a number of delivered ticks;
  `none` means the loop is still running when the ticks are used up.
* The parameter `n` of the string builders is a Go `int`, taken as 64 bits
  wide: the capacity `n * 12` the source computes wraps around, and a negative
  capacity or length panics, and so does one above `maxAlloc`, the largest
  size the runtime allocates. Below that limit memory is taken to be
  available.
* A request body stream is the list of the results of its `Read` calls; a nil
  stream is `none`.
-/

deriving instance DecidableEq for Except

/-! ## Connection registry -/

/-- Counters of gRPC connections: `active` is the number of open connections,
`acquired` the number of successful dials, `released` the number of closes. -/
structure Registry where
  active : Int
  acquired : Nat
  released : Nat
deriving DecidableEq

/-- The registry of a fresh process: nothing opened, nothing closed. -/
def Registry.empty : Registry := ⟨0, 0, 0⟩

/-- A successful `grpc.Dial`: one more open connection. -/
def Registry.dial (r : Registry) : Registry :=
  ⟨r.active + 1, r.acquired + 1, r.released⟩

/-- A call of `conn.Close()`: one open connection less. -/
def Registry.close (r : Registry) : Registry :=
  ⟨r.active - 1, r.acquired, r.released + 1⟩

/-- The two errors a request can return (`fmt.Errorf("failed to dial: ...")`,
`fmt.Errorf("failed to call SayHello: ...")`). -/
inductive RequestError where
  | failedToDial
  | failedToCallSayHello
deriving DecidableEq

/-- What the network does during one request: whether `grpc.Dial` returns a
connection and whether `SayHello` returns a response. -/
structure Outcome where
  dialOk : Bool
  helloOk : Bool
deriving DecidableEq

/-- How `main` ended: `log.Fatalf` (process exit, deferred calls do not run)
or a normal `return` (deferred calls run). -/
inductive Exit where
  | fatal
  | returned
deriving DecidableEq

/-- The observable result of a finished run of a client's `main`. -/
structure Run where
  exit : Exit
  requestCount : Nat
  calls : Nat
  reg : Registry
deriving DecidableEq

/-- The request loop shared verbatim by both clients
(`bad_client/main.go` lines 67-107, `good_client/main.go` lines 88-123):

```go
requestCount := 0
for range ticker.C {
    requestCount++
    if err := request(); err != nil { continue }
    ...
    if requestCount >= 500 { ...; return }
}
```

`request i s` is the request function called when `requestCount = i` in state
`s`. The first argument counts the ticks still to be delivered, `calls` counts
the calls of `request`. The result is `requestCount`, `calls` and the state at
the `return`. The logging between the two tests changes no state. With one
tick per millisecond `requestCount` stays far below the limit of `int`, so it
is a natural number here. -/
def tickerLoop {σ : Type} (request : Nat → σ → σ × Option RequestError) :
    Nat → Nat → Nat → σ → Option (Nat × Nat × σ)
  | 0, _, _, _ => none
  | ticks + 1, requestCount, calls, s =>
    let requestCount := requestCount + 1
    match request requestCount s with
    | (s1, some _) => tickerLoop request ticks requestCount (calls + 1) s1
    | (s1, none) =>
      if requestCount ≥ 500 then some (requestCount, calls + 1, s1)
      else tickerLoop request ticks requestCount (calls + 1) s1

namespace GoroutineBad

/-- Go `makeRequestBad`: dial a new connection on every call and never close it.
A failed dial returns before anything is opened; after a successful dial both
the error return and the normal return leave the connection open. -/
def makeRequestBad (o : Outcome) (r : Registry) : Registry × Option RequestError :=
  if o.dialOk then
    let r1 := r.dial
    if o.helloOk then (r1, none) else (r1, some .failedToCallSayHello)
  else (r, some .failedToDial)

/-- The registry after a sequence of calls of `makeRequestBad`, one per
outcome, in order. -/
def callSequence (os : List Outcome) (r : Registry) : Registry :=
  os.foldl (fun acc o => (makeRequestBad o acc).1) r

/-- Go `main` of the bad client: the request loop over `makeRequestBad`, started
with `requestCount = 0` in a fresh process. `env i` is what the network does
during request number `i`. -/
def main (env : Nat → Outcome) (ticks : Nat) : Option Run :=
  match tickerLoop (fun i r => makeRequestBad (env i) r) ticks 0 0 Registry.empty with
  | none => none
  | some (requestCount, calls, r) => some ⟨.returned, requestCount, calls, r⟩

end GoroutineBad

namespace GoroutineGood

/-- The `GoodClient` struct: it owns the one connection it dialled
(`conn` is the ordinal of that dial). -/
structure GoodClient where
  conn : Nat
deriving DecidableEq

/-- Go `NewGoodClient`: dial once; on failure no client and nothing opened. -/
def NewGoodClient (dialOk : Bool) (r : Registry) : Registry × Option GoodClient :=
  if dialOk then (r.dial, some ⟨r.dial.acquired⟩) else (r, none)

/-- Go `(*GoodClient).Close`: closes the client's connection. -/
def GoodClient.Close (_c : GoodClient) (r : Registry) : Registry := r.close

/-- Go `(*GoodClient).MakeRequest`: one `SayHello` on the existing connection;
neither dials nor closes. -/
def GoodClient.MakeRequest (_c : GoodClient) (helloOk : Bool) (r : Registry) :
    Registry × Option RequestError :=
  if helloOk then (r, none) else (r, some .failedToCallSayHello)

/-- Go `main` of the good client: `NewGoodClient`, `log.Fatalf` if that fails,
otherwise `defer client.Close()` and the request loop over
`client.MakeRequest`; the deferred close runs when the loop returns. -/
def main (dialOk : Bool) (hello : Nat → Bool) (ticks : Nat) : Option Run :=
  match NewGoodClient dialOk Registry.empty with
  | (r, none) => some ⟨.fatal, 0, 0, r⟩
  | (r, some client) =>
    match tickerLoop (fun i s => client.MakeRequest (hello i) s) ticks 0 0 r with
    | none => none
    | some (requestCount, calls, r1) =>
      some ⟨.returned, requestCount, calls, client.Close r1⟩

end GoroutineGood

/-! ## String building (`cpu_analyze`) -/

namespace CpuCase3

/-- Go `len(s)`: the number of bytes of the UTF-8 encoding of `s`. -/
def len (s : String) : Nat := s.utf8ByteSize

/-- Two's-complement wrap-around of 64-bit `int` arithmetic. -/
def wrapInt64 (x : Int) : Int := (x + 2 ^ 63) % 2 ^ 64 - 2 ^ 63

/-- The largest size in bytes the Go runtime allocates (`maxAlloc`): 2^48 on
the 64-bit platforms with a 48-bit heap address space, linux/amd64 among them.
A request of more bytes panics. -/
def maxAlloc : Nat := 281474976710656

/-- The run-time panics of the buffer constructors: "Grow: negative count",
"makeslice: cap out of range", "makeslice: len out of range" and
"bytes.Buffer: too large". -/
inductive Panic where
  | growNegativeCount
  | makesliceCapOutOfRange
  | makesliceLenOutOfRange
  | bufferTooLarge
deriving DecidableEq

/-- Go `fmt.Sprintf("item_%d,", i)` for a loop index `i` (never negative). -/
def sprintfItem (i : Nat) : String := "item_" ++ toString i ++ ","

/-- Go `fmt.Sprintf("item_%d", i)`, the item without the trailing comma. -/
def sprintfItemNoComma (i : Nat) : String := "item_" ++ toString i

/-- The indices visited by `for i := 0; i < n; i++`: `0, 1, ..., n-1`, and
none at all when `n <= 0`. -/
def loopIndices (n : Int) : List Nat := List.range n.toNat

/-- Go `badStringConcat`: `result += fmt.Sprintf("item_%d,", i)` in a loop. -/
def badStringConcat (n : Int) : String :=
  (loopIndices n).foldl (fun result i => result ++ sprintfItem i) ""

/-- Go `goodStringBuilder`: `builder.Grow(n * 12)` and then one `WriteString` per
item. `Grow` panics on a negative count, which is what the 64-bit product
`n * 12` is when it overflows into the sign bit, and the buffer it allocates
panics on a count above `maxAlloc`; otherwise `Grow` only reserves capacity
and the result is the bytes written. -/
def goodStringBuilder (n : Int) : Except Panic String :=
  if wrapInt64 (n * 12) < 0 then .error .growNegativeCount
  else if (maxAlloc : Int) < wrapInt64 (n * 12) then .error .makesliceLenOutOfRange
  else .ok ((loopIndices n).foldl (fun builder i => builder ++ sprintfItem i) "")

/-- Go `goodBytesBuffer`: the same with `bytes.Buffer`, whose `Grow` panics on a
negative count as well and turns the failure to allocate a count above
`maxAlloc` into its "too large" panic. -/
def goodBytesBuffer (n : Int) : Except Panic String :=
  if wrapInt64 (n * 12) < 0 then .error .growNegativeCount
  else if (maxAlloc : Int) < wrapInt64 (n * 12) then .error .bufferTooLarge
  else .ok ((loopIndices n).foldl (fun buffer i => buffer ++ sprintfItem i) "")

/-- Go `goodByteSlice`: `make([]byte, 0, n*12)` panics on a capacity that is
negative or above `maxAlloc`; otherwise every item is appended to the slice,
which is converted to a string at the end. -/
def goodByteSlice (n : Int) : Except Panic String :=
  if wrapInt64 (n * 12) < 0 then .error .makesliceCapOutOfRange
  else if (maxAlloc : Int) < wrapInt64 (n * 12) then .error .makesliceCapOutOfRange
  else .ok (String.mk
    ((loopIndices n).foldl (fun data i => data ++ (sprintfItem i).data) []))

/-- Go `goodStringsJoin`: `make([]string, n)` panics on a length that is
negative or, at 16 bytes per string header, takes more than `maxAlloc` bytes;
otherwise `items[i]` is the item without comma for every `i < n`, and the
result is `strings.Join(items, ",")`: the items in order with one "," between
two neighbours, the empty string for no items. For two or more items `Join`
reserves the length of the result first, which panics above `maxAlloc`. -/
def goodStringsJoin (n : Int) : Except Panic String :=
  if n < 0 ∨ (maxAlloc : Int) < 16 * n then .error .makesliceLenOutOfRange
  else
    let items := (loopIndices n).map sprintfItemNoComma
    let joined := ",".intercalate items
    if 2 ≤ items.length ∧ maxAlloc < len joined then .error .makesliceLenOutOfRange
    else .ok joined

/-- What the claim says all builders return: the items `item_<i>,` for
`i = 0, ..., n-1` one after the other. -/
def itemsSpec : Nat → String
  | 0 => ""
  | n + 1 => itemsSpec n ++ sprintfItem n

/-- The copy cost model of `explainWhySlow`: every concatenation allocates a
new string and copies the old string and the appended one into it. -/
structure Cost where
  allocations : Nat
  bytesCopied : Nat
deriving DecidableEq

/-- Go `badStringConcat` with the cost of each `result += piece` recorded:
one allocation, and `len(result) + len(piece)` bytes copied. -/
def badStringConcatCost (n : Int) : String × Cost :=
  (loopIndices n).foldl
    (fun acc i =>
      let piece := sprintfItem i
      (acc.1 ++ piece,
        ⟨acc.2.allocations + 1, acc.2.bytesCopied + (len acc.1 + len piece)⟩))
    ("", ⟨0, 0⟩)

/-- Go `goodStringBuilder` with the bytes written by each `WriteString` recorded:
every byte of an item is copied into the buffer once. -/
def goodStringBuilderCost (n : Int) : Except Panic (String × Nat) :=
  if wrapInt64 (n * 12) < 0 then .error .growNegativeCount
  else if (maxAlloc : Int) < wrapInt64 (n * 12) then .error .makesliceLenOutOfRange
  else .ok ((loopIndices n).foldl
    (fun acc i =>
      let piece := sprintfItem i
      (acc.1 ++ piece, acc.2 + len piece))
    ("", 0))

/-- The state of a `strings.Builder`: the bytes written, the capacity of its
buffer, and how many `WriteString` calls found the buffer too small and had
to move it to a larger one. -/
structure Builder where
  buf : String
  cap : Nat
  regrowths : Nat
deriving DecidableEq

/-- Go `(*Builder).Grow(n)`: panics on a negative count; if fewer than `n`
bytes are free, the buffer is replaced by one of `2*cap + n` bytes, which
panics above `maxAlloc`. The allocator may round the new capacity up, never
down: `cap` is the capacity the buffer has at least. -/
def Builder.Grow (b : Builder) (n : Int) : Except Panic Builder :=
  if n < 0 then .error .growNegativeCount
  else if (b.cap : Int) - (len b.buf : Int) < n then
    if maxAlloc < 2 * b.cap + n.toNat then .error .makesliceLenOutOfRange
    else .ok { b with cap := 2 * b.cap + n.toNat }
  else .ok b

/-- Go `(*Builder).WriteString(s)`, which is `append(b.buf, s...)`: when the
bytes fit into the capacity they are written in place; otherwise the buffer
is moved to a larger one first (amortized doubling, at least the length
needed). -/
def Builder.WriteString (b : Builder) (s : String) : Builder :=
  if len b.buf + len s ≤ b.cap then { b with buf := b.buf ++ s }
  else ⟨b.buf ++ s, max (2 * b.cap) (len b.buf + len s), b.regrowths + 1⟩

/-- Go `goodStringBuilder` with the buffer capacity followed: the zero
`Builder`, `Grow(n * 12)`, one `WriteString` per item. -/
def goodStringBuilderTraced (n : Int) : Except Panic Builder :=
  match Builder.Grow ⟨"", 0, 0⟩ (wrapInt64 (n * 12)) with
  | .error p => .error p
  | .ok builder =>
    .ok ((loopIndices n).foldl (fun b i => b.WriteString (sprintfItem i)) builder)

end CpuCase3

/-! ## Request bodies (`memory_analyze`) -/

/-- One call of `Read` on a request body stream: it delivers some bytes, or
it fails with an error other than `io.EOF`. -/
inductive ReadEvent where
  | data (n : Nat)
  | fail
deriving DecidableEq

/-- A request body stream: the reads still to come; after the last one `Read`
returns `io.EOF`. -/
abbrev BodyStream := List ReadEvent

/-- The run-time panic of a handler. -/
inductive HandlerPanic where
  | nilPointerDereference
deriving DecidableEq

/-- The part of `fasthttp.RequestCtx` the handlers use. Request side: the
path, what `Request.Body()` returns, what `Request.Header.ContentLength()`
returns (`-1` for a chunked body, `-2` for an identity body) and
`RequestBodyStream()` (`none` is Go's `nil`). Response side: status code,
content type and body. Process side: how often `runtime.GC()` ran and whether
the goroutine calling `os.Exit(0)` was started. -/
structure RequestCtx where
  path : String
  body : List UInt8
  contentLength : Int
  bodyStream : Option BodyStream
  statusCode : Nat
  contentType : String
  responseBody : String
  gcRuns : Nat
  exitScheduled : Bool
deriving DecidableEq

/-- The context fasthttp hands to the handler: the request as received, the
response still empty with status 200 and the default content type. -/
def RequestCtx.incoming (path : String) (body : List UInt8) (contentLength : Int)
    (bodyStream : Option BodyStream) : RequestCtx :=
  ⟨path, body, contentLength, bodyStream, 200, "text/plain; charset=utf-8", "", 0, false⟩

/-- The loop of `io.Copy(io.Discard, r)` for a stream `r` that is not nil:
read until `io.EOF` or an error; the result is the number of bytes discarded,
whether an error was returned, and what is left of the stream. -/
def ioCopyDiscard : BodyStream → Nat → Nat × Bool × BodyStream
  | [], written => (written, false, [])
  | .data n :: rest, written => ioCopyDiscard rest (written + n)
  | .fail :: rest, written => (written, true, rest)

/-- Every handler that guards the copy:
`if ctx.RequestBodyStream() != nil { io.Copy(io.Discard, ctx.RequestBodyStream()) }`,
the result of the copy being ignored. -/
def discardBodyIfPresent (ctx : RequestCtx) : RequestCtx :=
  match ctx.bodyStream with
  | none => ctx
  | some r => { ctx with bodyStream := some (ioCopyDiscard r 0).2.2 }

/-- Go `ctx.Error(msg, statusCode)`: the response is reset to the status code,
the plain-text content type and the message as body. -/
def RequestCtx.Error (ctx : RequestCtx) (msg : String) (statusCode : Nat) : RequestCtx :=
  { ctx with statusCode := statusCode, contentType := "text/plain; charset=utf-8",
             responseBody := msg }

/-- Go `fmt.Fprintf(ctx, ...)`: the formatted text is appended to the response
body. -/
def RequestCtx.write (ctx : RequestCtx) (text : String) : RequestCtx :=
  { ctx with responseBody := ctx.responseBody ++ text }

/-- The JSON written by the upload handlers,
`\x7b"status":"success","size":%d,"mode":"<mode>"\x7d`. -/
def uploadJson (size : Int) (mode : String) : String :=
  "\x7b\"status\":\"success\",\"size\":" ++ toString size ++ ",\"mode\":\"" ++ mode ++ "\"\x7d"

namespace MemoryBad

/-- Go `badHandler`: the size is `len(ctx.Request.Body())`; answers 200 with the
upload JSON in mode "bad". `Request.Body()` reads the body stream, if there is
one, to its end and closes it, which leaves the request without a stream. -/
def badHandler (ctx : RequestCtx) : Except HandlerPanic RequestCtx :=
  let body := ctx.body
  let ctx := { ctx with bodyStream := none }
  let size : Int := body.length
  let ctx := { ctx with contentType := "application/json" }
  let ctx := { ctx with statusCode := 200 }
  .ok (ctx.write (uploadJson size "bad"))

/-- Go `gcHandler` of the bad server: discard the body if there is a stream,
run the collector, answer 200 with a fixed JSON body. -/
def gcHandler (ctx : RequestCtx) : Except HandlerPanic RequestCtx :=
  let ctx := discardBodyIfPresent ctx
  let ctx := { ctx with gcRuns := ctx.gcRuns + 1 }
  let ctx := { ctx with contentType := "application/json" }
  let ctx := { ctx with statusCode := 200 }
  .ok (ctx.write "\x7b\"status\":\"gc triggered\"\x7d")

/-- Go `exitHandler` of the bad server: discard the body if there is a stream,
answer 200 with a fixed JSON body, start the goroutine that exits the process
a second later. -/
def exitHandler (ctx : RequestCtx) : Except HandlerPanic RequestCtx :=
  let ctx := discardBodyIfPresent ctx
  let ctx := { ctx with contentType := "application/json" }
  let ctx := { ctx with statusCode := 200 }
  let ctx := ctx.write "\x7b\"status\":\"exit\"\x7d"
  .ok { ctx with exitScheduled := true }

/-- The `requestHandler` closure of the bad server's `main`: a switch on the
path; the default branch discards the body if there is a stream and answers
404 "Not Found". -/
def requestHandler (ctx : RequestCtx) : Except HandlerPanic RequestCtx :=
  if ctx.path = "/upload" then badHandler ctx
  else if ctx.path = "/gc" then gcHandler ctx
  else if ctx.path = "/exit" then exitHandler ctx
  else .ok ((discardBodyIfPresent ctx).Error "Not Found" 404)

end MemoryBad

namespace MemoryGood

/-- Go `goodHandler`: the size is the `Content-Length` header; the body stream is
passed to `io.Copy(io.Discard, ...)` without a nil check, so a nil stream is
dereferenced by the first `Read`; a read error answers 500, otherwise 200 with
the upload JSON in mode "good". -/
def goodHandler (ctx : RequestCtx) : Except HandlerPanic RequestCtx :=
  let size := ctx.contentLength
  match ctx.bodyStream with
  | none => .error .nilPointerDereference
  | some r =>
    let (_n, err, rest) := ioCopyDiscard r 0
    let ctx := { ctx with bodyStream := some rest }
    if err then .ok (ctx.Error "Internal Server Error" 500)
    else
      let ctx := { ctx with contentType := "application/json" }
      let ctx := { ctx with statusCode := 200 }
      .ok (ctx.write (uploadJson size "good"))

/-- Go `gcHandler` of the good server: discard the body if there is a stream,
run the collector, answer 200 with a fixed JSON body. -/
def gcHandler (ctx : RequestCtx) : Except HandlerPanic RequestCtx :=
  let ctx := discardBodyIfPresent ctx
  let ctx := { ctx with gcRuns := ctx.gcRuns + 1 }
  let ctx := { ctx with contentType := "application/json" }
  let ctx := { ctx with statusCode := 200 }
  .ok (ctx.write "\x7b\"status\":\"gc triggered\"\x7d")

/-- Go `exitHandler` of the good server: discard the body if there is a
stream, answer 200 with a fixed JSON body, start the goroutine that exits the
process a second later. -/
def exitHandler (ctx : RequestCtx) : Except HandlerPanic RequestCtx :=
  let ctx := discardBodyIfPresent ctx
  let ctx := { ctx with contentType := "application/json" }
  let ctx := { ctx with statusCode := 200 }
  let ctx := ctx.write "\x7b\"status\":\"exit\"\x7d"
  .ok { ctx with exitScheduled := true }

/-- The `requestHandler` closure of the good server's `main`: a switch on the
path; the default branch discards the body if there is a stream and answers
404 "Not Found". -/
def requestHandler (ctx : RequestCtx) : Except HandlerPanic RequestCtx :=
  if ctx.path = "/upload" then goodHandler ctx
  else if ctx.path = "/gc" then gcHandler ctx
  else if ctx.path = "/exit" then exitHandler ctx
  else .ok ((discardBodyIfPresent ctx).Error "Not Found" 404)

end MemoryGood

/-- The state after `k` further requests, numbered `requestCount + 1`, ...,
`requestCount + k`. -/
def stateAfter {σ : Type} (request : Nat → σ → σ × Option RequestError) :
    Nat → Nat → σ → σ
  | 0, _, s => s
  | k + 1, requestCount, s =>
    stateAfter request k (requestCount + 1) (request (requestCount + 1) s).1

/-- The network in which every dial and every `SayHello` succeeds. -/
def allSucceed : Nat → Outcome := fun _ => ⟨true, true⟩

/-- The network in which only request number 500 fails, in `SayHello`. -/
def onlyRequest500Fails : Nat → Outcome := fun i => ⟨true, i != 500⟩

/-! ## The request loop -/

theorem tickerLoop_continue {σ : Type} (request : Nat → σ → σ × Option RequestError)
    (ticks requestCount calls : Nat) (s : σ)
    (h : requestCount + 1 < 500 ∨ (request (requestCount + 1) s).2 ≠ none) :
    tickerLoop request (ticks + 1) requestCount calls s
      = tickerLoop request ticks (requestCount + 1) (calls + 1)
          (request (requestCount + 1) s).1 := by
  rw [tickerLoop]
  rcases hreq : request (requestCount + 1) s with ⟨s1, _ | e⟩
  · rw [hreq] at h
    have hlt : ¬ requestCount + 1 ≥ 500 := by
      rcases h with h | h
      · omega
      · exact absurd rfl h
    simp [hlt]
  · simp

theorem tickerLoop_return {σ : Type} (request : Nat → σ → σ × Option RequestError)
    (ticks requestCount calls : Nat) (s : σ)
    (hcount : 500 ≤ requestCount + 1) (hok : (request (requestCount + 1) s).2 = none) :
    tickerLoop request (ticks + 1) requestCount calls s
      = some (requestCount + 1, calls + 1, (request (requestCount + 1) s).1) := by
  rw [tickerLoop]
  rcases hreq : request (requestCount + 1) s with ⟨s1, _ | e⟩
  · simp [hcount]
  · rw [hreq] at hok
    exact absurd hok (by simp)

theorem tickerLoop_below {σ : Type} (request : Nat → σ → σ × Option RequestError) :
    ∀ (k ticks requestCount calls : Nat) (s : σ), requestCount + k < 500 →
      tickerLoop request (ticks + k) requestCount calls s
        = tickerLoop request ticks (requestCount + k) (calls + k)
            (stateAfter request k requestCount s) := by
  intro k
  induction k with
  | zero => intro ticks requestCount calls s _; rfl
  | succ k ih =>
    intro ticks requestCount calls s h
    have hstep := tickerLoop_continue request (ticks + k) requestCount calls s
      (Or.inl (by omega))
    have hih := ih ticks (requestCount + 1) (calls + 1) (request (requestCount + 1) s).1
      (by omega)
    rw [show ticks + (k + 1) = ticks + k + 1 by omega, hstep, hih, stateAfter,
      show requestCount + 1 + k = requestCount + (k + 1) by omega,
      show calls + 1 + k = calls + (k + 1) by omega]

/-- Whenever the loop returns, it has called the request function once per
counted request, the count is at least 500, and the last request succeeded. -/
theorem tickerLoop_result {σ : Type} (request : Nat → σ → σ × Option RequestError) :
    ∀ (ticks requestCount calls : Nat) (s : σ) (res : Nat × Nat × σ),
      tickerLoop request ticks requestCount calls s = some res →
        500 ≤ res.1 ∧ requestCount < res.1 ∧ res.1 - requestCount = res.2.1 - calls ∧
          calls < res.2.1 ∧ res.2.2 = stateAfter request (res.1 - requestCount) requestCount s := by
  intro ticks
  induction ticks with
  | zero => intro requestCount calls s res h; simp [tickerLoop] at h
  | succ ticks ih =>
    intro requestCount calls s res h
    by_cases hc : requestCount + 1 < 500 ∨ (request (requestCount + 1) s).2 ≠ none
    · rw [tickerLoop_continue request ticks requestCount calls s hc] at h
      obtain ⟨h1, h2, h3, h4, h5⟩ := ih _ _ _ _ h
      refine ⟨h1, by omega, by omega, by omega, ?_⟩
      rw [h5, show res.1 - requestCount = (res.1 - (requestCount + 1)) + 1 by omega, stateAfter]
    · have hc1 : 500 ≤ requestCount + 1 := by
        by_contra hlt
        exact hc (Or.inl (by omega))
      have hc2 : (request (requestCount + 1) s).2 = none := by
        by_contra hne
        exact hc (Or.inr hne)
      rw [tickerLoop_return request ticks requestCount calls s hc1 hc2] at h
      cases h
      refine ⟨hc1, by simp, by simp, by simp, ?_⟩
      simp [stateAfter]

/-! ## The bad client: one leaked connection per call -/

theorem makeRequestBad_dialOk (o : Outcome) (r : Registry) (h : o.dialOk = true) :
    (GoroutineBad.makeRequestBad o r).1 = r.dial := by
  unfold GoroutineBad.makeRequestBad
  rw [if_pos h]
  by_cases hh : o.helloOk = true <;> simp [hh]

theorem callSequence_dialOk (os : List Outcome) :
    ∀ r : Registry, (∀ o ∈ os, o.dialOk = true) →
      GoroutineBad.callSequence os r
        = ⟨r.active + os.length, r.acquired + os.length, r.released⟩ := by
  induction os with
  | nil => intro r _; simp [GoroutineBad.callSequence]
  | cons o os ih =>
    intro r h
    have ho : o.dialOk = true := h o (by simp)
    have hrest : ∀ o1 ∈ os, o1.dialOk = true := fun o1 h1 => h o1 (by simp [h1])
    have hfold : GoroutineBad.callSequence (o :: os) r
        = GoroutineBad.callSequence os (GoroutineBad.makeRequestBad o r).1 := rfl
    rw [hfold, makeRequestBad_dialOk o r ho, ih r.dial hrest]
    simp only [Registry.dial, List.length_cons, Nat.cast_add, Nat.cast_one]
    congr 1
    · omega
    · omega

theorem stateAfter_bad (env : Nat → Outcome) (hdial : ∀ i, (env i).dialOk = true) :
    ∀ (k requestCount : Nat) (r : Registry),
      stateAfter (fun i r => GoroutineBad.makeRequestBad (env i) r) k requestCount r
        = ⟨r.active + k, r.acquired + k, r.released⟩ := by
  intro k
  induction k with
  | zero => intro requestCount r; simp [stateAfter]
  | succ k ih =>
    intro requestCount r
    rw [stateAfter, makeRequestBad_dialOk _ r (hdial _), ih]
    simp only [Registry.dial, Nat.cast_add, Nat.cast_one]
    congr 1
    · omega
    · omega

theorem stateAfter_good (client : GoroutineGood.GoodClient) (hello : Nat → Bool) :
    ∀ (k requestCount : Nat) (r : Registry),
      stateAfter (fun i s => client.MakeRequest (hello i) s) k requestCount r = r := by
  intro k
  induction k with
  | zero => intro requestCount r; rfl
  | succ k ih =>
    intro requestCount r
    rw [stateAfter, ih]
    unfold GoroutineGood.GoodClient.MakeRequest
    by_cases hh : hello (requestCount + 1) = true <;> simp [hh]

/-- C1: in every sequence of calls of `makeRequestBad` whose dials all succeed,
whatever `SayHello` does, the open-connection counter after the first `j`
calls is exactly `j` above its start (so `k` above after all `k` calls), it
never decreases along the sequence, and nothing is ever closed: every call
leaks exactly one connection, on the success and on the error path. -/
theorem makeRequestBad_leaks_one_per_call (os : List Outcome) (r : Registry)
    (hdial : ∀ o ∈ os, o.dialOk = true) :
    (GoroutineBad.callSequence os r).active = r.active + os.length ∧
    (∀ j, j ≤ os.length →
      (GoroutineBad.callSequence (os.take j) r).active = r.active + j ∧
      (GoroutineBad.callSequence (os.take j) r).released = r.released) ∧
    (∀ i j, i ≤ j → j ≤ os.length →
      (GoroutineBad.callSequence (os.take i) r).active
        ≤ (GoroutineBad.callSequence (os.take j) r).active) ∧
    (∀ o ∈ os, ∀ r0 : Registry,
      (GoroutineBad.makeRequestBad o r0).1.active = r0.active + 1) := by
  have htake : ∀ j, j ≤ os.length →
      GoroutineBad.callSequence (os.take j) r
        = ⟨r.active + j, r.acquired + j, r.released⟩ := by
    intro j hj
    have h := callSequence_dialOk (os.take j) r
      (fun o ho => hdial o (List.mem_of_mem_take ho))
    rw [h, List.length_take, Nat.min_eq_left hj]
  refine ⟨?_, ?_, ?_, ?_⟩
  · rw [callSequence_dialOk os r hdial]
  · intro j hj
    rw [htake j hj]
    exact ⟨rfl, rfl⟩
  · intro i j hij hj
    rw [htake i (le_trans hij hj), htake j hj]
    show r.active + (i : Int) ≤ r.active + (j : Int)
    omega
  · intro o ho r0
    rw [makeRequestBad_dialOk o r0 (hdial o ho)]
    rfl

theorem makeRequestBad_leaks_one_per_call_witness :
    (GoroutineBad.callSequence [⟨true, true⟩, ⟨true, false⟩, ⟨true, true⟩]
      Registry.empty).active = Registry.empty.active + 3 :=
  (makeRequestBad_leaks_one_per_call [⟨true, true⟩, ⟨true, false⟩, ⟨true, true⟩]
    Registry.empty (by decide)).1

/-! ## The good client: one connection, closed at the end -/

theorem goodMain_run (hello : Nat → Bool) (ticks : Nat) (run : Run)
    (h : GoroutineGood.main true hello ticks = some run) :
    run.exit = .returned ∧ run.reg = ⟨0, 1, 1⟩ ∧ 500 ≤ run.requestCount ∧
      run.calls = run.requestCount := by
  unfold GoroutineGood.main GoroutineGood.NewGoodClient at h
  simp only [if_true] at h
  rcases hloop : tickerLoop
      (fun i s => GoroutineGood.GoodClient.MakeRequest ⟨Registry.empty.dial.acquired⟩ (hello i) s)
      ticks 0 0 Registry.empty.dial with _ | ⟨requestCount, calls, r1⟩
  · rw [hloop] at h
    simp at h
  · rw [hloop] at h
    simp only [Option.some.injEq] at h
    obtain ⟨h1, _, h3, _, h5⟩ := tickerLoop_result _ _ _ _ _ _ hloop
    simp only at h1 h3 h5
    rw [stateAfter_good] at h5
    subst h
    refine ⟨rfl, ?_, h1, ?_⟩
    · simp only [h5]
      rfl
    · show calls = requestCount
      omega

/-- C2: in every finished run of the good client the open-connection counter
ends at 0. When `main` returns, `NewGoodClient` had opened exactly one
connection (one acquisition in the whole run), the deferred `client.Close`
released it, and every `MakeRequest` call, whether `SayHello` succeeds or
fails, left the registry exactly as it found it. -/
theorem goodClient_counter_balanced (dialOk : Bool) (hello : Nat → Bool) (ticks : Nat)
    (run : Run) (h : GoroutineGood.main dialOk hello ticks = some run) :
    run.reg.active = 0 ∧
    (run.exit = .returned →
      (GoroutineGood.NewGoodClient dialOk Registry.empty).1 = ⟨1, 1, 0⟩ ∧
      run.reg.acquired = 1 ∧ run.reg.released = 1) ∧
    (∀ (client : GoroutineGood.GoodClient) (helloOk : Bool) (r : Registry),
      (client.MakeRequest helloOk r).1 = r) := by
  refine ⟨?_, ?_, ?_⟩
  · cases dialOk with
    | true =>
      obtain ⟨_, hreg, _, _⟩ := goodMain_run hello ticks run h
      rw [hreg]
    | false =>
      simp [GoroutineGood.main, GoroutineGood.NewGoodClient] at h
      subst h
      rfl
  · intro hret
    cases dialOk with
    | true =>
      obtain ⟨_, hreg, _, _⟩ := goodMain_run hello ticks run h
      rw [hreg]
      exact ⟨rfl, rfl, rfl⟩
    | false =>
      simp [GoroutineGood.main, GoroutineGood.NewGoodClient] at h
      subst h
      simp at hret
  · intro client helloOk r
    unfold GoroutineGood.GoodClient.MakeRequest
    cases helloOk <;> rfl

theorem goodMain_allSucceed (hello : Nat → Bool) (hok : ∀ i, hello i = true) (ticks : Nat)
    (hticks : 500 ≤ ticks) :
    GoroutineGood.main true hello ticks = some ⟨.returned, 500, 500, ⟨0, 1, 1⟩⟩ := by
  obtain ⟨extra, rfl⟩ : ∃ extra, ticks = extra + 1 + 499 := ⟨ticks - 500, by omega⟩
  unfold GoroutineGood.main GoroutineGood.NewGoodClient
  simp only [if_true]
  rw [tickerLoop_below _ 499 (extra + 1) 0 0 _ (by omega), stateAfter_good,
    tickerLoop_return _ extra (0 + 499) (0 + 499) _ (by omega)
      (by simp [GoroutineGood.GoodClient.MakeRequest, hok])]
  simp [GoroutineGood.GoodClient.MakeRequest, hok, GoroutineGood.GoodClient.Close,
    Registry.close, Registry.dial, Registry.empty]

theorem goodClient_counter_balanced_witness :
    GoroutineGood.main true (fun _ => true) 500 = some ⟨.returned, 500, 500, ⟨0, 1, 1⟩⟩ ∧
    (⟨.returned, 500, 500, ⟨0, 1, 1⟩⟩ : Run).reg.active = 0 :=
  ⟨goodMain_allSucceed (fun _ => true) (fun _ => rfl) 500 (le_refl 500),
    (goodClient_counter_balanced true (fun _ => true) 500 ⟨.returned, 500, 500, ⟨0, 1, 1⟩⟩
      (goodMain_allSucceed (fun _ => true) (fun _ => rfl) 500 (le_refl 500))).1⟩

theorem badMain_allSucceed (env : Nat → Outcome) (hok : ∀ i, env i = ⟨true, true⟩)
    (ticks : Nat) (hticks : 500 ≤ ticks) :
    GoroutineBad.main env ticks = some ⟨.returned, 500, 500, ⟨500, 500, 0⟩⟩ := by
  obtain ⟨extra, rfl⟩ : ∃ extra, ticks = extra + 1 + 499 := ⟨ticks - 500, by omega⟩
  have hdial : ∀ i, (env i).dialOk = true := fun i => by rw [hok i]
  unfold GoroutineBad.main
  rw [tickerLoop_below _ 499 (extra + 1) 0 0 _ (by omega), stateAfter_bad env hdial,
    tickerLoop_return _ extra (0 + 499) (0 + 499) _ (by omega)
      (by simp [GoroutineBad.makeRequestBad, hok])]
  simp [GoroutineBad.makeRequestBad, hok, Registry.dial, Registry.empty]

/-- C3: in the run of the bad client in which every request succeeds, `main`
returns as soon as 500 ticks have been delivered, having called
`makeRequestBad` exactly 500 times; at that point 500 connections have been
opened, none closed, and 500 are still open. With fewer than 500 ticks the
loop is still running. -/
theorem badClient_leaks_500 (env : Nat → Outcome) (hok : ∀ i, env i = ⟨true, true⟩)
    (ticks : Nat) :
    (500 ≤ ticks →
      GoroutineBad.main env ticks = some ⟨.returned, 500, 500, ⟨500, 500, 0⟩⟩) ∧
    (ticks < 500 → GoroutineBad.main env ticks = none) := by
  refine ⟨badMain_allSucceed env hok ticks, ?_⟩
  intro hlt
  have hdial : ∀ i, (env i).dialOk = true := fun i => by rw [hok i]
  unfold GoroutineBad.main
  have h := tickerLoop_below (fun i r => GoroutineBad.makeRequestBad (env i) r)
    ticks 0 0 0 Registry.empty (by omega)
  rw [Nat.zero_add] at h
  rw [h]
  rfl

theorem badClient_leaks_500_witness :
    GoroutineBad.main allSucceed 500 = some ⟨.returned, 500, 500, ⟨500, 500, 0⟩⟩ :=
  (badClient_leaks_500 allSucceed (fun _ => rfl) 500).1 (le_refl 500)

/-- C4 as stated fails: the all-succeeding run of the good client does not end
with 500 acquisitions and 500 releases. -/
theorem goodClient_not_500_acquired :
    ¬ ∃ run : Run, GoroutineGood.main true (fun _ => true) 500 = some run ∧
      run.reg.active = 0 ∧ run.reg.acquired = 500 ∧ run.reg.released = 500 := by
  rintro ⟨run, hrun, _, hacq, _⟩
  rw [goodMain_allSucceed (fun _ => true) (fun _ => rfl) 500 (le_refl 500)] at hrun
  cases hrun
  simp at hacq

/-- C4 amended: in the run of the good client in which the dial and all
requests succeed, `main` returns once 500 ticks have been delivered, after
exactly 500 requests, with no connection open and exactly one connection
acquired and one released. -/
theorem goodClient_one_acquired_one_released (hello : Nat → Bool)
    (hok : ∀ i, hello i = true) (ticks : Nat) (hticks : 500 ≤ ticks) :
    ∃ run : Run, GoroutineGood.main true hello ticks = some run ∧
      run.exit = .returned ∧ run.requestCount = 500 ∧ run.calls = 500 ∧
      run.reg.active = 0 ∧ run.reg.acquired = 1 ∧ run.reg.released = 1 :=
  ⟨_, goodMain_allSucceed hello hok ticks hticks, rfl, rfl, rfl, rfl, rfl, rfl⟩

theorem goodClient_one_acquired_one_released_witness :
    ∃ run : Run, GoroutineGood.main true (fun _ => true) 500 = some run ∧
      run.exit = .returned ∧ run.requestCount = 500 ∧ run.calls = 500 ∧
      run.reg.active = 0 ∧ run.reg.acquired = 1 ∧ run.reg.released = 1 :=
  goodClient_one_acquired_one_released (fun _ => true) (fun _ => rfl) 500 (le_refl 500)

/-! ## A failed 500th request -/

theorem badMain_onlyRequest500Fails (extra : Nat) :
    GoroutineBad.main onlyRequest500Fails (extra + 501)
      = some ⟨.returned, 501, 501, ⟨501, 501, 0⟩⟩ := by
  have hdial : ∀ i, (onlyRequest500Fails i).dialOk = true := fun _ => rfl
  unfold GoroutineBad.main
  rw [show extra + 501 = extra + 1 + 1 + 499 by omega,
    tickerLoop_below _ 499 (extra + 1 + 1) 0 0 _ (by omega),
    stateAfter_bad onlyRequest500Fails hdial,
    tickerLoop_continue _ (extra + 1) (0 + 499) (0 + 499) _
      (Or.inr (by simp [GoroutineBad.makeRequestBad, onlyRequest500Fails])),
    tickerLoop_return _ extra (0 + 499 + 1) (0 + 499 + 1) _ (by omega)
      (by simp [GoroutineBad.makeRequestBad, onlyRequest500Fails])]
  simp [GoroutineBad.makeRequestBad, onlyRequest500Fails, Registry.dial, Registry.empty]

theorem goodMain_onlyRequest500Fails (extra : Nat) :
    GoroutineGood.main true (fun i => (onlyRequest500Fails i).helloOk) (extra + 501)
      = some ⟨.returned, 501, 501, ⟨0, 1, 1⟩⟩ := by
  unfold GoroutineGood.main GoroutineGood.NewGoodClient
  simp only [if_true]
  rw [show extra + 501 = extra + 1 + 1 + 499 by omega,
    tickerLoop_below _ 499 (extra + 1 + 1) 0 0 _ (by omega), stateAfter_good,
    tickerLoop_continue _ (extra + 1) (0 + 499) (0 + 499) _
      (Or.inr (by simp [GoroutineGood.GoodClient.MakeRequest, onlyRequest500Fails])),
    tickerLoop_return _ extra (0 + 499 + 1) (0 + 499 + 1) _ (by omega)
      (by simp [GoroutineGood.GoodClient.MakeRequest, onlyRequest500Fails])]
  simp [GoroutineGood.GoodClient.MakeRequest, onlyRequest500Fails,
    GoroutineGood.GoodClient.Close, Registry.close, Registry.dial, Registry.empty]

/-- C8, the code at the failing input: when requests 1 to 499 succeed, request
500 fails and request 501 succeeds, neither client stops after the 500th
request. Both are still in the loop after 500 ticks, both send a 501st request
on the next tick, and both return only after it, with `requestCount = 501`
and 501 calls of the request function. -/
theorem request_loop_sends_501st_request :
    GoroutineBad.main onlyRequest500Fails 500 = none ∧
    GoroutineBad.main onlyRequest500Fails 501
      = some ⟨.returned, 501, 501, ⟨501, 501, 0⟩⟩ ∧
    GoroutineGood.main true (fun i => (onlyRequest500Fails i).helloOk) 500 = none ∧
    GoroutineGood.main true (fun i => (onlyRequest500Fails i).helloOk) 501
      = some ⟨.returned, 501, 501, ⟨0, 1, 1⟩⟩ := by
  refine ⟨?_, badMain_onlyRequest500Fails 0, ?_, goodMain_onlyRequest500Fails 0⟩
  · unfold GoroutineBad.main
    rw [show (500 : Nat) = 0 + 1 + 499 by omega,
      tickerLoop_below _ 499 (0 + 1) 0 0 _ (by omega),
      tickerLoop_continue _ 0 (0 + 499) (0 + 499) _
        (Or.inr (by simp [GoroutineBad.makeRequestBad, onlyRequest500Fails]))]
    rfl
  · unfold GoroutineGood.main GoroutineGood.NewGoodClient
    simp only [if_true]
    rw [show (500 : Nat) = 0 + 1 + 499 by omega,
      tickerLoop_below _ 499 (0 + 1) 0 0 _ (by omega),
      tickerLoop_continue _ 0 (0 + 499) (0 + 499) _
        (Or.inr (by simp [GoroutineGood.GoodClient.MakeRequest, onlyRequest500Fails]))]
    rfl

/-! ## String building: results -/

theorem len_append (s t : String) : CpuCase3.len (s ++ t) = CpuCase3.len s + CpuCase3.len t := by
  show String.utf8Len (s ++ t).data = String.utf8Len s.data + String.utf8Len t.data
  rw [String.data_append, String.utf8Len_append]

theorem digitChar_utf8Size (d : Nat) (h : d < 10) : (Nat.digitChar d).utf8Size = 1 := by
  interval_cases d <;> decide

theorem toDigitsCore_ascii (b : Nat) (hb : b = 10) :
    ∀ (f n : Nat) (ds : List Char), (∀ c ∈ ds, c.utf8Size = 1) →
      ∀ c ∈ Nat.toDigitsCore b f n ds, c.utf8Size = 1 := by
  intro f
  induction f with
  | zero => intro n ds h c hc; exact h c (by simpa [Nat.toDigitsCore] using hc)
  | succ f ih =>
    intro n ds h c hc
    have hcons : ∀ c ∈ Nat.digitChar (n % b) :: ds, c.utf8Size = 1 := by
      intro c hc
      rcases List.mem_cons.mp hc with rfl | hc
      · exact digitChar_utf8Size _ (by subst hb; exact Nat.mod_lt n (by decide))
      · exact h c hc
    rw [Nat.toDigitsCore] at hc
    by_cases hz : n / b = 0
    · simp only [hz, if_true] at hc
      exact hcons c hc
    · simp only [hz, if_false] at hc
      exact ih _ _ hcons c hc

theorem toDigitsCore_length_le (b : Nat) :
    ∀ (f n : Nat) (ds : List Char), ds.length ≤ (Nat.toDigitsCore b f n ds).length := by
  intro f
  induction f with
  | zero => intro n ds; simp [Nat.toDigitsCore]
  | succ f ih =>
    intro n ds
    rw [Nat.toDigitsCore]
    by_cases hz : n / b = 0
    · simp [hz]
    · simp only [hz, if_false]
      exact le_trans (by simp) (ih _ (Nat.digitChar (n % b) :: ds))

theorem utf8Len_ascii (cs : List Char) (h : ∀ c ∈ cs, c.utf8Size = 1) :
    String.utf8Len cs = cs.length := by
  induction cs with
  | nil => rfl
  | cons c cs ih =>
    rw [String.utf8Len_cons, ih (fun d hd => h d (by simp [hd])), h c (by simp),
      List.length_cons]

theorem len_toString (i : Nat) : CpuCase3.len (toString i) = (Nat.toDigits 10 i).length :=
  utf8Len_ascii (Nat.toDigits 10 i)
    (toDigitsCore_ascii 10 rfl (i + 1) i [] (fun _ h => absurd h (List.not_mem_nil _)))

theorem len_toString_pos (i : Nat) : 1 ≤ CpuCase3.len (toString i) := by
  rw [len_toString, Nat.toDigits, Nat.toDigitsCore]
  by_cases hz : i / 10 = 0
  · simp [hz]
  · simp only [hz, if_false]
    exact le_trans (by simp) (toDigitsCore_length_le 10 i (i / 10) [Nat.digitChar (i % 10)])

theorem len_toString_le (i : Nat) (h : i < 1000000) : CpuCase3.len (toString i) ≤ 6 := by
  rw [len_toString]
  exact Nat.repr_length i 6 (by omega) (by omega)

theorem len_sprintfItem (i : Nat) :
    CpuCase3.len (CpuCase3.sprintfItem i) = CpuCase3.len (toString i) + 6 := by
  unfold CpuCase3.sprintfItem
  rw [len_append, len_append]
  have h1 : CpuCase3.len "item_" = 5 := by decide
  have h2 : CpuCase3.len "," = 1 := by decide
  omega

theorem foldl_items (k : Nat) :
    (List.range k).foldl (fun result i => result ++ CpuCase3.sprintfItem i) ""
      = CpuCase3.itemsSpec k := by
  induction k with
  | zero => rfl
  | succ k ih => rw [List.range_succ, List.foldl_append, ih]; rfl

theorem foldl_items_data (k : Nat) :
    (List.range k).foldl (fun data i => data ++ (CpuCase3.sprintfItem i).data) []
      = (CpuCase3.itemsSpec k).data := by
  induction k with
  | zero => rfl
  | succ k ih =>
    rw [List.range_succ, List.foldl_append, ih]
    simp [CpuCase3.itemsSpec, String.data_append]

theorem badStringConcat_eq (n : Int) :
    CpuCase3.badStringConcat n = CpuCase3.itemsSpec n.toNat :=
  foldl_items n.toNat

theorem maxAlloc_cast : (CpuCase3.maxAlloc : Int) = 281474976710656 := rfl

theorem capacity_in_range (n : Int) (h0 : 0 ≤ n) (h1 : n ≤ 1000000) :
    CpuCase3.wrapInt64 (n * 12) = n * 12 := by
  unfold CpuCase3.wrapInt64
  have hmod : (n * 12 + 2 ^ 63) % 2 ^ 64 = n * 12 + 2 ^ 63 :=
    Int.emod_eq_of_lt (by omega) (by omega)
  rw [hmod]
  omega

theorem capacity_not_negative (n : Int) (h0 : 0 ≤ n) (h1 : n ≤ 1000000) :
    ¬ CpuCase3.wrapInt64 (n * 12) < 0 := by
  rw [capacity_in_range n h0 h1]
  omega

theorem capacity_not_too_large (n : Int) (h0 : 0 ≤ n) (h1 : n ≤ 1000000) :
    ¬ (CpuCase3.maxAlloc : Int) < CpuCase3.wrapInt64 (n * 12) := by
  rw [capacity_in_range n h0 h1, maxAlloc_cast]
  omega

theorem goodStringBuilder_eq (n : Int) (h0 : 0 ≤ n) (h1 : n ≤ 1000000) :
    CpuCase3.goodStringBuilder n = .ok (CpuCase3.itemsSpec n.toNat) := by
  rw [CpuCase3.goodStringBuilder, if_neg (capacity_not_negative n h0 h1),
    if_neg (capacity_not_too_large n h0 h1), CpuCase3.loopIndices, foldl_items]

/-- C5 as stated fails: for `n = 768614336404564651` the 64-bit product
`n * 12` is negative, `builder.Grow` panics, and `goodStringBuilder` returns
no string at all, so not the string `badStringConcat` builds. -/
theorem goodStringBuilder_panics_when_capacity_overflows :
    (0 : Int) ≤ 768614336404564651 ∧
    CpuCase3.goodStringBuilder 768614336404564651 = .error .growNegativeCount ∧
    CpuCase3.goodStringBuilder 768614336404564651
      ≠ .ok (CpuCase3.badStringConcat 768614336404564651) := by
  have h : CpuCase3.goodStringBuilder 768614336404564651 = .error .growNegativeCount := by
    decide
  refine ⟨by decide, h, ?_⟩
  rw [h]
  intro hne
  cases hne

/-- C5 amended: for every `n` with `0 <= n <= 1000000`, `badStringConcat`,
`goodStringBuilder`, `goodBytesBuffer` and `goodByteSlice` all return the same
string: the items `item_<i>,` for `i = 0, ..., n-1` in order, which is the
empty string for `n = 0`. -/
theorem builders_agree (n : Int) (h0 : 0 ≤ n) (h1 : n ≤ 1000000) :
    CpuCase3.badStringConcat n = CpuCase3.itemsSpec n.toNat ∧
    CpuCase3.goodStringBuilder n = .ok (CpuCase3.itemsSpec n.toNat) ∧
    CpuCase3.goodBytesBuffer n = .ok (CpuCase3.itemsSpec n.toNat) ∧
    CpuCase3.goodByteSlice n = .ok (CpuCase3.itemsSpec n.toNat) ∧
    CpuCase3.itemsSpec 0 = "" := by
  have hneg := capacity_not_negative n h0 h1
  have hbig := capacity_not_too_large n h0 h1
  refine ⟨badStringConcat_eq n, goodStringBuilder_eq n h0 h1, ?_, ?_, rfl⟩
  · rw [CpuCase3.goodBytesBuffer, if_neg hneg, if_neg hbig, CpuCase3.loopIndices, foldl_items]
  · rw [CpuCase3.goodByteSlice, if_neg hneg, if_neg hbig, CpuCase3.loopIndices,
      foldl_items_data]

theorem builders_agree_witness :
    CpuCase3.badStringConcat 1000000 = CpuCase3.itemsSpec (1000000 : Int).toNat ∧
    CpuCase3.goodStringBuilder 1000000 = .ok (CpuCase3.itemsSpec (1000000 : Int).toNat) ∧
    CpuCase3.goodBytesBuffer 1000000 = .ok (CpuCase3.itemsSpec (1000000 : Int).toNat) ∧
    CpuCase3.goodByteSlice 1000000 = .ok (CpuCase3.itemsSpec (1000000 : Int).toNat) ∧
    CpuCase3.itemsSpec 0 = "" :=
  builders_agree 1000000 (by decide) (by decide)

/-! ## String building: the copy cost model -/

theorem len_itemsSpec_succ (k : Nat) :
    CpuCase3.len (CpuCase3.itemsSpec (k + 1))
      = CpuCase3.len (CpuCase3.itemsSpec k) + CpuCase3.len (CpuCase3.sprintfItem k) := by
  rw [CpuCase3.itemsSpec, len_append]

theorem len_itemsSpec_bounds (k : Nat) (hk : k ≤ 1000000) :
    7 * k ≤ CpuCase3.len (CpuCase3.itemsSpec k) ∧
      CpuCase3.len (CpuCase3.itemsSpec k) ≤ 12 * k := by
  induction k with
  | zero => exact ⟨by simp, by decide⟩
  | succ k ih =>
    obtain ⟨hlo, hhi⟩ := ih (by omega)
    have h1 := len_toString_pos k
    have h2 := len_toString_le k (by omega)
    rw [len_itemsSpec_succ, len_sprintfItem]
    omega

theorem badStringConcatCost_fold (k : Nat) :
    (List.range k).foldl
      (fun (acc : String × CpuCase3.Cost) i =>
        (acc.1 ++ CpuCase3.sprintfItem i,
          (⟨acc.2.allocations + 1,
            acc.2.bytesCopied + (CpuCase3.len acc.1 + CpuCase3.len (CpuCase3.sprintfItem i))⟩ :
            CpuCase3.Cost)))
      ("", ⟨0, 0⟩)
      = (CpuCase3.itemsSpec k,
          ⟨k, ∑ j ∈ Finset.Icc 1 k, CpuCase3.len (CpuCase3.itemsSpec j)⟩) := by
  induction k with
  | zero => rfl
  | succ k ih =>
    rw [List.range_succ, List.foldl_append, ih,
      Finset.sum_Icc_succ_top (by omega), len_itemsSpec_succ]
    rfl

theorem goodStringBuilderCost_fold (k : Nat) :
    (List.range k).foldl
      (fun (acc : String × Nat) i =>
        (acc.1 ++ CpuCase3.sprintfItem i, acc.2 + CpuCase3.len (CpuCase3.sprintfItem i)))
      ("", 0)
      = (CpuCase3.itemsSpec k, CpuCase3.len (CpuCase3.itemsSpec k)) := by
  induction k with
  | zero => rfl
  | succ k ih =>
    rw [List.range_succ, List.foldl_append, ih, len_itemsSpec_succ]
    rfl

theorem sum_len_badStringConcat (n : Nat) :
    ∑ k ∈ Finset.Icc 1 n, CpuCase3.len (CpuCase3.badStringConcat (k : Int))
      = ∑ k ∈ Finset.Icc 1 n, CpuCase3.len (CpuCase3.itemsSpec k) := by
  refine Finset.sum_congr rfl (fun k _ => ?_)
  rw [badStringConcat_eq, Int.toNat_ofNat]

theorem badStringConcatCost_eq (n : Nat) :
    CpuCase3.badStringConcatCost (n : Int)
      = (CpuCase3.badStringConcat (n : Int),
          ⟨n, ∑ k ∈ Finset.Icc 1 n, CpuCase3.len (CpuCase3.badStringConcat (k : Int))⟩) := by
  rw [sum_len_badStringConcat, badStringConcat_eq, Int.toNat_ofNat]
  unfold CpuCase3.badStringConcatCost CpuCase3.loopIndices
  rw [Int.toNat_ofNat]
  exact badStringConcatCost_fold n

theorem sum_len_bounds (n : Nat) (hn : n ≤ 1000000) :
    7 * (n * (n + 1)) ≤ 2 * ∑ k ∈ Finset.Icc 1 n, CpuCase3.len (CpuCase3.itemsSpec k) ∧
      2 * ∑ k ∈ Finset.Icc 1 n, CpuCase3.len (CpuCase3.itemsSpec k) ≤ 12 * (n * (n + 1)) := by
  induction n with
  | zero => simp
  | succ n ih =>
    obtain ⟨hlo, hhi⟩ := ih (by omega)
    obtain ⟨hlo1, hhi1⟩ := len_itemsSpec_bounds (n + 1) hn
    have e : (n + 1) * (n + 1 + 1) = n * (n + 1) + 2 * (n + 1) := by ring
    rw [Finset.sum_Icc_succ_top (by omega), e]
    omega

/-- C6: at `n = 1000`, under the copy cost model, the bytes copied by
`badStringConcat` (the cost recorded by the instrumented loop, which is the
sum over `k = 1..1000` of `len(badStringConcat(k))`) are at least 10 times the
bytes written by `goodStringBuilder(1000)`, which are the `len` of its
result. -/
theorem naive_copies_ten_times_more_at_1000 :
    (CpuCase3.badStringConcatCost 1000).2.bytesCopied
      = ∑ k ∈ Finset.Icc 1 (1000 : Nat), CpuCase3.len (CpuCase3.badStringConcat (k : Int)) ∧
    ∃ s : String, CpuCase3.goodStringBuilder 1000 = .ok s ∧
      CpuCase3.goodStringBuilderCost 1000 = .ok (s, CpuCase3.len s) ∧
      10 * CpuCase3.len s
        ≤ ∑ k ∈ Finset.Icc 1 (1000 : Nat),
            CpuCase3.len (CpuCase3.badStringConcat (k : Int)) := by
  have hcap : ¬ CpuCase3.wrapInt64 (1000 * 12) < 0 := by decide
  refine ⟨?_, CpuCase3.itemsSpec 1000, ?_, ?_, ?_⟩
  · have h := badStringConcatCost_eq 1000
    simp only [Nat.cast_ofNat] at h
    rw [h]
  · unfold CpuCase3.goodStringBuilder CpuCase3.loopIndices
    rw [if_neg hcap]
    exact congrArg Except.ok (foldl_items 1000)
  · unfold CpuCase3.goodStringBuilderCost CpuCase3.loopIndices
    rw [if_neg hcap]
    exact congrArg Except.ok (goodStringBuilderCost_fold 1000)
  · rw [sum_len_badStringConcat]
    have h1 := (sum_len_bounds 1000 (by omega)).1
    have h2 := (len_itemsSpec_bounds 1000 (by omega)).2
    omega

/-- C7: for every `n <= 1000000` (in particular `1 <= n <= 1000000`), under the copy cost model, the
bytes copied by `badStringConcat(n)` are the sum over `k = 1..n` of
`len(badStringConcat(k))`, that sum lies between `7*n*(n+1)/2` and
`12*n*(n+1)/2`, and the loop performs exactly `n` concatenations. -/
theorem naive_copy_cost_quadratic (n : Nat) (h2 : n ≤ 1000000) :
    (CpuCase3.badStringConcatCost (n : Int)).2.bytesCopied
      = ∑ k ∈ Finset.Icc 1 n, CpuCase3.len (CpuCase3.badStringConcat (k : Int)) ∧
    7 * n * (n + 1) / 2
      ≤ ∑ k ∈ Finset.Icc 1 n, CpuCase3.len (CpuCase3.badStringConcat (k : Int)) ∧
    ∑ k ∈ Finset.Icc 1 n, CpuCase3.len (CpuCase3.badStringConcat (k : Int))
      ≤ 12 * n * (n + 1) / 2 ∧
    (CpuCase3.badStringConcatCost (n : Int)).2.allocations = n := by
  obtain ⟨hlo, hhi⟩ := sum_len_bounds n h2
  have e7 : 7 * n * (n + 1) = 7 * (n * (n + 1)) := by ring
  have e12 : 12 * n * (n + 1) = 12 * (n * (n + 1)) := by ring
  rw [badStringConcatCost_eq, sum_len_badStringConcat, e7, e12]
  refine ⟨rfl, ?_, ?_, rfl⟩
  · omega
  · omega

theorem naive_copy_cost_quadratic_witness :
    7 * 1000 * (1000 + 1) / 2
      ≤ ∑ k ∈ Finset.Icc 1 (1000 : Nat), CpuCase3.len (CpuCase3.badStringConcat (k : Int)) ∧
    ∑ k ∈ Finset.Icc 1 (1000 : Nat), CpuCase3.len (CpuCase3.badStringConcat (k : Int))
      ≤ 12 * 1000 * (1000 + 1) / 2 ∧
    (CpuCase3.badStringConcatCost ((1000 : Nat) : Int)).2.allocations = 1000 :=
  (naive_copy_cost_quadratic 1000 (by decide)).2

/-! ## The memory servers -/

theorem uploadJson_size (size1 size2 : Int) (mode : String)
    (h : uploadJson size1 mode = uploadJson size2 mode) : toString size1 = toString size2 := by
  unfold uploadJson at h
  have hdata := congrArg String.data h
  simp only [String.data_append] at hdata
  have h1 := List.append_cancel_right hdata
  have h2 := List.append_cancel_right h1
  have h3 := List.append_cancel_right h2
  have h4 := List.append_cancel_left h3
  exact String.ext h4

/-- The chunked upload of three bytes: `Content-Length` is reported as `-1`,
the body has three bytes, the stream delivers them in one read. -/
theorem chunkedUpload_responses :
    MemoryBad.requestHandler (RequestCtx.incoming "/upload" [1, 2, 3] (-1) (some [.data 3]))
      = .ok ⟨"/upload", [1, 2, 3], -1, none, 200, "application/json",
          uploadJson 3 "bad", 0, false⟩ ∧
    MemoryGood.requestHandler (RequestCtx.incoming "/upload" [1, 2, 3] (-1) (some [.data 3]))
      = .ok ⟨"/upload", [1, 2, 3], -1, some [], 200, "application/json",
          uploadJson (-1) "good", 0, false⟩ := by
  constructor <;> decide

/-- C9, the code at the failing input: for a chunked upload of three bytes the
bad server answers with `"size":3`, the length of the body, and the good
server with `"size":-1`, what `Content-Length` is reported as for a chunked
body; there is no size that both servers report. -/
theorem servers_report_different_sizes :
    MemoryBad.requestHandler (RequestCtx.incoming "/upload" [1, 2, 3] (-1) (some [.data 3]))
      = .ok ⟨"/upload", [1, 2, 3], -1, none, 200, "application/json",
          uploadJson 3 "bad", 0, false⟩ ∧
    MemoryGood.requestHandler (RequestCtx.incoming "/upload" [1, 2, 3] (-1) (some [.data 3]))
      = .ok ⟨"/upload", [1, 2, 3], -1, some [], 200, "application/json",
          uploadJson (-1) "good", 0, false⟩ ∧
    ¬ ∃ (bad good : RequestCtx) (size : Int),
      MemoryBad.requestHandler (RequestCtx.incoming "/upload" [1, 2, 3] (-1) (some [.data 3]))
        = .ok bad ∧
      MemoryGood.requestHandler (RequestCtx.incoming "/upload" [1, 2, 3] (-1) (some [.data 3]))
        = .ok good ∧
      bad.statusCode = good.statusCode ∧
      bad.responseBody = uploadJson size "bad" ∧
      good.responseBody = uploadJson size "good" := by
  refine ⟨chunkedUpload_responses.1, chunkedUpload_responses.2, ?_⟩
  rintro ⟨bad, good, size, hbad, hgood, _, hb, hg⟩
  rw [chunkedUpload_responses.1] at hbad
  rw [chunkedUpload_responses.2] at hgood
  cases hbad
  cases hgood
  have h3 : toString (3 : Int) = toString size := uploadJson_size _ _ _ hb
  have h1 : toString (-1 : Int) = toString size := uploadJson_size _ _ _ hg
  have hne : toString (3 : Int) ≠ toString (-1 : Int) := by decide
  exact hne (h3.trans h1.symm)

/-- Where the two servers do agree: both route every request the same way. On
every path other than `/upload` they run the same handler (`gcHandler` for
`/gc`, `exitHandler` for `/exit`, 404 "Not Found" for anything else) and
answer identically. On `/upload`, for a request whose body stream is present
and is read without error and whose `Content-Length` header happens to equal
the length of its body, both answer 200 with the same content type and the
same JSON, `"size"` included, except for the `"mode"` field. -/
theorem servers_symmetric (ctx : RequestCtx) :
    (ctx.path ≠ "/upload" →
      MemoryBad.requestHandler ctx = MemoryGood.requestHandler ctx) ∧
    (ctx.path = "/gc" →
      MemoryBad.requestHandler ctx = MemoryBad.gcHandler ctx ∧
      MemoryGood.requestHandler ctx = MemoryGood.gcHandler ctx) ∧
    (ctx.path = "/exit" →
      MemoryBad.requestHandler ctx = MemoryBad.exitHandler ctx ∧
      MemoryGood.requestHandler ctx = MemoryGood.exitHandler ctx) ∧
    (ctx.path ≠ "/upload" → ctx.path ≠ "/gc" → ctx.path ≠ "/exit" →
      ∃ out : RequestCtx, MemoryBad.requestHandler ctx = .ok out ∧
        MemoryGood.requestHandler ctx = .ok out ∧
        out.statusCode = 404 ∧ out.responseBody = "Not Found") ∧
    (ctx.path = "/upload" → ∀ r : BodyStream, ctx.bodyStream = some r →
      (ioCopyDiscard r 0).2.1 = false → ctx.contentLength = ctx.body.length →
      ∃ bad good : RequestCtx,
        MemoryBad.requestHandler ctx = .ok bad ∧ MemoryGood.requestHandler ctx = .ok good ∧
        bad.statusCode = 200 ∧ good.statusCode = 200 ∧
        bad.contentType = good.contentType ∧
        bad.responseBody = ctx.responseBody ++ uploadJson ctx.body.length "bad" ∧
        good.responseBody = ctx.responseBody ++ uploadJson ctx.body.length "good") := by
  refine ⟨?_, ?_, ?_, ?_, ?_⟩
  · intro h
    simp only [MemoryBad.requestHandler, MemoryGood.requestHandler, h, if_false]
    rfl
  · intro h
    have hne : ctx.path ≠ "/upload" := by rw [h]; decide
    constructor
    · simp [MemoryBad.requestHandler, h]
    · simp [MemoryGood.requestHandler, h]
  · intro h
    have hne : ctx.path ≠ "/upload" := by rw [h]; decide
    have hne2 : ctx.path ≠ "/gc" := by rw [h]; decide
    constructor
    · simp [MemoryBad.requestHandler, h]
    · simp [MemoryGood.requestHandler, h]
  · intro h1 h2 h3
    refine ⟨(discardBodyIfPresent ctx).Error "Not Found" 404, ?_, ?_, rfl, rfl⟩
    · simp [MemoryBad.requestHandler, h1, h2, h3]
    · simp [MemoryGood.requestHandler, h1, h2, h3]
  · intro h r hr herr hlen
    have hbad : MemoryBad.requestHandler ctx
        = .ok (RequestCtx.write
            { ctx with bodyStream := none, contentType := "application/json",
                       statusCode := 200 }
            (uploadJson ctx.body.length "bad")) := by
      simp only [MemoryBad.requestHandler, h, if_true, MemoryBad.badHandler]
    have hgood : MemoryGood.requestHandler ctx
        = .ok (RequestCtx.write
            { ctx with bodyStream := some (ioCopyDiscard r 0).2.2,
                       contentType := "application/json", statusCode := 200 }
            (uploadJson ctx.body.length "good")) := by
      simp only [MemoryGood.requestHandler, h, if_true, MemoryGood.goodHandler, hr, herr, hlen]
      rfl
    exact ⟨_, _, hbad, hgood, rfl, rfl, rfl, rfl, rfl⟩

/-- An upload with a `Content-Length` header of 3 and a body of three bytes:
both servers report size 3. -/
theorem servers_symmetric_plain_upload :
    ∃ bad good : RequestCtx,
      MemoryBad.requestHandler (RequestCtx.incoming "/upload" [1, 2, 3] 3 (some [.data 3]))
        = .ok bad ∧
      MemoryGood.requestHandler (RequestCtx.incoming "/upload" [1, 2, 3] 3 (some [.data 3]))
        = .ok good ∧
      bad.statusCode = 200 ∧ good.statusCode = 200 ∧
      bad.contentType = good.contentType ∧
      bad.responseBody = "" ++ uploadJson 3 "bad" ∧
      good.responseBody = "" ++ uploadJson 3 "good" :=
  (servers_symmetric (RequestCtx.incoming "/upload" [1, 2, 3] 3 (some [.data 3]))).2.2.2.2
    rfl [.data 3] rfl rfl rfl

/-- C10, the code at the failing input: a request for `/upload` whose body
stream is nil makes `goodHandler` dereference the nil stream, while the three
sibling routes, which test the stream against nil first, complete on the same
request. -/
theorem goodHandler_panics_on_nil_stream :
    MemoryGood.requestHandler (RequestCtx.incoming "/upload" [] 0 none)
      = .error .nilPointerDereference ∧
    MemoryGood.requestHandler (RequestCtx.incoming "/gc" [] 0 none)
      = .ok ⟨"/gc", [], 0, none, 200, "application/json",
          "\x7b\"status\":\"gc triggered\"\x7d", 1, false⟩ ∧
    MemoryGood.requestHandler (RequestCtx.incoming "/exit" [] 0 none)
      = .ok ⟨"/exit", [], 0, none, 200, "application/json",
          "\x7b\"status\":\"exit\"\x7d", 0, true⟩ ∧
    MemoryGood.requestHandler (RequestCtx.incoming "/other" [] 0 none)
      = .ok ⟨"/other", [], 0, none, 404, "text/plain; charset=utf-8", "Not Found", 0, false⟩ := by
  refine ⟨?_, ?_, ?_, ?_⟩ <;> decide

/-! ## String building: the pre-allocated capacity -/

theorem wrapInt64_capacity (n : Nat) (hn : n ≤ 1000000) :
    CpuCase3.wrapInt64 ((n : Int) * 12) = (n : Int) * 12 := by
  unfold CpuCase3.wrapInt64
  have hmod : ((n : Int) * 12 + 2 ^ 63) % 2 ^ 64 = (n : Int) * 12 + 2 ^ 63 :=
    Int.emod_eq_of_lt (by omega) (by omega)
  rw [hmod]
  omega

theorem writeString_fold (cap : Nat) :
    ∀ k : Nat, k ≤ 1000000 → 12 * k ≤ cap →
      (List.range k).foldl
        (fun (b : CpuCase3.Builder) i => b.WriteString (CpuCase3.sprintfItem i)) ⟨"", cap, 0⟩
        = ⟨CpuCase3.itemsSpec k, cap, 0⟩ := by
  intro k
  induction k with
  | zero => intro _ _; rfl
  | succ k ih =>
    intro hk hcap
    have hfit : CpuCase3.len (CpuCase3.itemsSpec k) + CpuCase3.len (CpuCase3.sprintfItem k)
        ≤ cap := by
      have h := (len_itemsSpec_bounds (k + 1) hk).2
      rw [len_itemsSpec_succ] at h
      omega
    rw [List.range_succ, List.foldl_append, ih (by omega) (by omega)]
    simp only [List.foldl_cons, List.foldl_nil, CpuCase3.Builder.WriteString, if_pos hfit]
    rfl

theorem grow_zero (n : Nat) (hn : n ≤ 1000000) :
    CpuCase3.Builder.Grow ⟨"", 0, 0⟩ ((n : Int) * 12) = .ok ⟨"", 12 * n, 0⟩ := by
  have hlen : CpuCase3.len "" = 0 := by decide
  have hneg : ¬ ((n : Int) * 12 < 0) := by omega
  rw [CpuCase3.Builder.Grow, if_neg hneg]
  show (if ((0 : Nat) : Int) - ((CpuCase3.len "" : Nat) : Int) < (n : Int) * 12 then _ else _) = _
  rw [hlen]
  by_cases h0 : n = 0
  · subst h0
    rfl
  · have hlt : ((0 : Nat) : Int) - ((0 : Nat) : Int) < (n : Int) * 12 := by omega
    rw [if_pos hlt]
    have hcap : 2 * 0 + ((n : Int) * 12).toNat = 12 * n := by omega
    have hfits : ¬ CpuCase3.maxAlloc < 12 * n := by
      have hmax : CpuCase3.maxAlloc = 281474976710656 := rfl
      omega
    show (if CpuCase3.maxAlloc < 2 * 0 + ((n : Int) * 12).toNat then _
      else Except.ok (CpuCase3.Builder.mk "" (2 * 0 + ((n : Int) * 12).toNat) 0)) = _
    rw [hcap, if_neg hfits]

theorem goodStringBuilderTraced_eq (n : Nat) (hn : n ≤ 1000000) :
    CpuCase3.goodStringBuilderTraced (n : Int) = .ok ⟨CpuCase3.itemsSpec n, 12 * n, 0⟩ := by
  rw [CpuCase3.goodStringBuilderTraced, wrapInt64_capacity n hn, grow_zero n hn]
  show Except.ok _ = _
  rw [CpuCase3.loopIndices, Int.toNat_ofNat]
  exact congrArg Except.ok (writeString_fold (12 * n) n hn (le_refl _))

/-- C11: for every `n` with `0 <= n <= 1000000` each item `item_<i>,` with
`i < n` has at most 12 bytes, `goodStringBuilder(n)` returns a string of at
least `7*n` and at most `12*n` bytes, and the buffer reserved by
`Grow(n * 12)` has room for all of it: with the capacity followed, the builder
ends with capacity `12*n` and no `WriteString` ever had to enlarge the
buffer. -/
theorem preallocated_capacity_suffices (n : Nat) (hn : n ≤ 1000000) :
    (∀ i, i < n → CpuCase3.len (CpuCase3.sprintfItem i) ≤ 12) ∧
    ∃ s : String, CpuCase3.goodStringBuilder (n : Int) = .ok s ∧
      7 * n ≤ CpuCase3.len s ∧ CpuCase3.len s ≤ 12 * n ∧
      CpuCase3.goodStringBuilderTraced (n : Int) = .ok ⟨s, 12 * n, 0⟩ := by
  refine ⟨?_, CpuCase3.itemsSpec n, ?_, ?_, ?_, goodStringBuilderTraced_eq n hn⟩
  · intro i hi
    have h := len_toString_le i (by omega)
    rw [len_sprintfItem]
    omega
  · have h := goodStringBuilder_eq (n : Int) (by omega) (by omega)
    rw [Int.toNat_ofNat] at h
    exact h
  · exact (len_itemsSpec_bounds n hn).1
  · exact (len_itemsSpec_bounds n hn).2

theorem preallocated_capacity_suffices_witness :
    ∃ s : String, CpuCase3.goodStringBuilder ((1000000 : Nat) : Int) = .ok s ∧
      7 * 1000000 ≤ CpuCase3.len s ∧ CpuCase3.len s ≤ 12 * 1000000 ∧
      CpuCase3.goodStringBuilderTraced ((1000000 : Nat) : Int) = .ok ⟨s, 12 * 1000000, 0⟩ :=
  (preallocated_capacity_suffices 1000000 (le_refl _)).2

/-! ## String building: the printed figures -/

/-- C12, the code at `n = 10000`: under the copy cost model `badStringConcat`
performs 10000 allocations and copies the sum over `k = 1..10000` of
`len(badStringConcat(k))` bytes, which is at least 350,035,000 and at most
600,060,000, so not within 25,000,000 to 100,000,000, the range around the
"50MB" that `memoryAnalysis` prints; `goodStringBuilder(10000)` returns at most
120,000 bytes, as printed. -/
theorem memoryAnalysis_understates_bytes_copied :
    (CpuCase3.badStringConcatCost 10000).2.allocations = 10000 ∧
    (CpuCase3.badStringConcatCost 10000).2.bytesCopied
      = ∑ k ∈ Finset.Icc 1 (10000 : Nat), CpuCase3.len (CpuCase3.badStringConcat (k : Int)) ∧
    350035000
      ≤ ∑ k ∈ Finset.Icc 1 (10000 : Nat), CpuCase3.len (CpuCase3.badStringConcat (k : Int)) ∧
    ∑ k ∈ Finset.Icc 1 (10000 : Nat), CpuCase3.len (CpuCase3.badStringConcat (k : Int))
      ≤ 600060000 ∧
    ¬ (∑ k ∈ Finset.Icc 1 (10000 : Nat), CpuCase3.len (CpuCase3.badStringConcat (k : Int))
      ≤ 100000000) ∧
    ∃ s : String, CpuCase3.goodStringBuilder 10000 = .ok s ∧ CpuCase3.len s ≤ 120000 := by
  have hcost := badStringConcatCost_eq 10000
  simp only [Nat.cast_ofNat] at hcost
  have hsum := sum_len_bounds 10000 (by omega)
  rw [← sum_len_badStringConcat] at hsum
  have hcap : ¬ CpuCase3.wrapInt64 (10000 * 12) < 0 := by decide
  refine ⟨?_, ?_, ?_, ?_, ?_, CpuCase3.itemsSpec 10000, ?_, ?_⟩
  · rw [hcost]
  · rw [hcost]
  · omega
  · omega
  · omega
  · rw [CpuCase3.goodStringBuilder, if_neg hcap]
    exact congrArg Except.ok (foldl_items 10000)
  · have h := (len_itemsSpec_bounds 10000 (by omega)).2
    omega

/-! ## String building: `strings.Join` -/

theorem intercalate_go_snoc (sep : String) :
    ∀ (l : List String) (acc b : String),
      String.intercalate.go acc sep (l ++ [b]) = String.intercalate.go acc sep l ++ sep ++ b := by
  intro l
  induction l with
  | nil => intro acc b; rfl
  | cons a l ih =>
    intro acc b
    show String.intercalate.go (acc ++ sep ++ a) sep (l ++ [b]) = _
    rw [ih]
    rfl

theorem join_items (k : Nat) :
    ",".intercalate ((List.range (k + 1)).map CpuCase3.sprintfItemNoComma) ++ ","
      = CpuCase3.itemsSpec (k + 1) := by
  induction k with
  | zero => decide
  | succ k ih =>
    obtain ⟨a, l, hl⟩ : ∃ a l, (List.range (k + 1)).map CpuCase3.sprintfItemNoComma = a :: l := by
      rw [List.range_succ_eq_map]
      exact ⟨_, _, rfl⟩
    rw [List.range_succ, List.map_append, List.map_singleton, hl]
    rw [hl] at ih
    show String.intercalate.go a "," (l ++ [CpuCase3.sprintfItemNoComma (k + 1)]) ++ "," = _
    rw [intercalate_go_snoc, String.append_assoc]
    show String.intercalate "," (a :: l) ++ "," ++ CpuCase3.sprintfItem (k + 1) = _
    rw [ih]
    rfl

/-- C13 as stated fails: `n = 768614336404564651` is at least 1, but
`make([]string, n)` asks for 16 bytes per item, more than the runtime
allocates, and panics; `goodStringsJoin` returns no string, so none that a
"," would complete to `badStringConcat(n)`. -/
theorem goodStringsJoin_panics_on_large_length :
    (1 : Int) ≤ 768614336404564651 ∧
    CpuCase3.goodStringsJoin 768614336404564651 = .error .makesliceLenOutOfRange ∧
    ¬ ∃ s : String, CpuCase3.goodStringsJoin 768614336404564651 = .ok s ∧
      s ++ "," = CpuCase3.badStringConcat 768614336404564651 := by
  have h : CpuCase3.goodStringsJoin 768614336404564651 = .error .makesliceLenOutOfRange := by
    decide
  refine ⟨by decide, h, ?_⟩
  rintro ⟨s, hs, _⟩
  rw [h] at hs
  cases hs

/-- C13 amended: for every `n` with `1 <= n <= 1000000`, `goodStringsJoin(n)`
returns a string that, followed by a single ",", is `badStringConcat(n)`; it
is exactly one byte shorter and so a different string; for `n = 0` both
return the empty string. -/
theorem goodStringsJoin_lacks_trailing_comma (n : Int) (hn : 1 ≤ n) (hmax : n ≤ 1000000) :
    (∃ s : String, CpuCase3.goodStringsJoin n = .ok s ∧
      s ++ "," = CpuCase3.badStringConcat n ∧
      CpuCase3.len s + 1 = CpuCase3.len (CpuCase3.badStringConcat n) ∧
      s ≠ CpuCase3.badStringConcat n) ∧
    CpuCase3.goodStringsJoin 0 = .ok "" ∧ CpuCase3.badStringConcat 0 = "" := by
  obtain ⟨k, hk⟩ : ∃ k, n.toNat = k + 1 := ⟨n.toNat - 1, by omega⟩
  have hrange : ¬ (n < 0 ∨ (CpuCase3.maxAlloc : Int) < 16 * n) := by
    rw [maxAlloc_cast]
    omega
  have hcomma : CpuCase3.len "," = 1 := by decide
  have hjoin : ",".intercalate ((List.range (k + 1)).map CpuCase3.sprintfItemNoComma) ++ ","
      = CpuCase3.badStringConcat n := by
    rw [join_items, badStringConcat_eq, hk]
  have hlen : CpuCase3.len (",".intercalate
      ((List.range (k + 1)).map CpuCase3.sprintfItemNoComma)) + 1
      = CpuCase3.len (CpuCase3.badStringConcat n) := by
    rw [← hjoin, len_append, hcomma]
  have hfit : ¬ (2 ≤ ((List.range (k + 1)).map CpuCase3.sprintfItemNoComma).length ∧
      CpuCase3.maxAlloc < CpuCase3.len (",".intercalate
        ((List.range (k + 1)).map CpuCase3.sprintfItemNoComma))) := by
    rintro ⟨_, hbig⟩
    have hbound := (len_itemsSpec_bounds (k + 1) (by omega)).2
    rw [badStringConcat_eq, hk] at hlen
    have hmaxAlloc : CpuCase3.maxAlloc = 281474976710656 := rfl
    omega
  refine ⟨⟨_, ?_, hjoin, hlen, ?_⟩, by decide, by decide⟩
  · rw [CpuCase3.goodStringsJoin, if_neg hrange]
    simp only [CpuCase3.loopIndices, hk]
    rw [if_neg hfit]
  · intro heq
    rw [← heq] at hlen
    omega

theorem goodStringsJoin_lacks_trailing_comma_witness :
    ∃ s : String, CpuCase3.goodStringsJoin 1000000 = .ok s ∧
      s ++ "," = CpuCase3.badStringConcat 1000000 ∧
      CpuCase3.len s + 1 = CpuCase3.len (CpuCase3.badStringConcat 1000000) ∧
      s ≠ CpuCase3.badStringConcat 1000000 :=
  (goodStringsJoin_lacks_trailing_comma 1000000 (by decide) (by decide)).1

/-! ## Concrete evaluations -/

example : GoroutineBad.main allSucceed 3 = none := by decide
example : CpuCase3.badStringConcat 3 = "item_0,item_1,item_2," := by decide
example : CpuCase3.goodStringBuilder 3 = .ok "item_0,item_1,item_2," := by decide
example : CpuCase3.goodBytesBuffer 3 = .ok "item_0,item_1,item_2," := by decide
example : CpuCase3.goodByteSlice 3 = .ok "item_0,item_1,item_2," := by decide
example : CpuCase3.goodStringsJoin 3 = .ok "item_0,item_1,item_2" := by decide
example : CpuCase3.goodStringsJoin 1 = .ok "item_0" := by decide
example : CpuCase3.goodStringsJoin 0 = .ok "" := by decide
example : CpuCase3.goodStringsJoin (-1) = .error .makesliceLenOutOfRange := by decide
example : CpuCase3.goodStringBuilderTraced 3 = .ok ⟨"item_0,item_1,item_2,", 36, 0⟩ := by
  decide
example : CpuCase3.badStringConcatCost 3 = ("item_0,item_1,item_2,", ⟨3, 42⟩) := by decide
example : CpuCase3.goodStringBuilderCost 3 = .ok ("item_0,item_1,item_2,", 21) := by decide
example : CpuCase3.itemsSpec 3 = "item_0,item_1,item_2," := by decide
